import Mathlib

/-
  Verification of the causal-ordering core of d-andersen/DistributedSystems
  (decentralised chat, Kshemkalyani-Singhal causal order).

  Shallow embedding of src/artefact/causal.py (CausalMessageEntry and
  CausalOrderManager) and of the message codec.  Python sets of peer ids
  become Finset String; Python sets of entries become Finset
  CausalMessageEntry (dataclass equality compares all three fields, and
  the custom hash over (i, clock_i) is a refinement of that equality, so
  Python set membership coincides with value membership); the dict SR_j
  becomes an association list with first-match lookup; json.dumps/loads
  are modelled by an explicit JSON value domain, the external serialiser
  being assumed faithful.
-/

namespace CausalChat

/-- Embedding of the dataclass CausalMessageEntry of causal.py: fields
i (origin peer id), clock_i (sender clock at send) and Dests (mutable
destination set).  Structure equality is the dataclass equality, which
compares all three fields. -/
structure CausalMessageEntry where
  i : String
  clock_i : Nat
  Dests : Finset String
  deriving DecidableEq

/-- The dataclass-generated equality of CausalMessageEntry, as a Bool:
it compares the tuple (i, clock_i, Dests), i.e. all three fields. -/
def pyEqCME (a b : CausalMessageEntry) : Bool :=
  a.i == b.i && a.clock_i == b.clock_i && decide (a.Dests = b.Dests)

/-- The tuple hashed by the explicit hash of CausalMessageEntry:
hash((self.i, self.clock_i)).  Two entries collide (have the same hash
input) exactly when their (origin, seq) pairs match. -/
def hashKey (e : CausalMessageEntry) : String × Nat :=
  (e.i, e.clock_i)

/-- The wire envelope (k, t_k, M, Dests, O_M) handled by packMessage,
unpackMessage, send and recv. -/
structure Envelope where
  k : String
  t_k : Nat
  M : String
  Dests : Finset String
  O_M : Finset CausalMessageEntry
  deriving DecidableEq

/-- The state of a CausalOrderManager: own id j, the clock clock_j, the
send-receive dict SR_j (association list, first-match lookup, as a
Python dict with unique keys) and the local log LOG_j. -/
structure COMState where
  j : String
  clock_j : Nat
  SR_j : List (String × Nat)
  LOG_j : Finset CausalMessageEntry
  deriving DecidableEq

/-- Constructor state: clock 0, SR_j = {own_id: 0},
LOG_j = {CME(own_id, 0, set())}. -/
def initState (own_id : String) : COMState :=
  { j := own_id, clock_j := 0, SR_j := [(own_id, 0)],
    LOG_j := {⟨own_id, 0, ∅⟩} }

/-- Python dict lookup SR_j[k]: Option-valued since a missing key raises
KeyError. -/
def dictLookup : List (String × Nat) → String → Option Nat
  | [], _ => none
  | e :: t, k => if e.1 = k then some e.2 else dictLookup t k

/-- Python dict assignment SR_j[k] = v: replace the binding when the key
is present, append it otherwise. -/
def dictInsert : List (String × Nat) → String → Nat → List (String × Nat)
  | [], k, v => [(k, v)]
  | e :: t, k, v => if e.1 = k then (k, v) :: t else e :: dictInsert t k v

/-- Python dict deletion del SR_j[k] (after the KeyError check). -/
def dictDelete : List (String × Nat) → String → List (String × Nat)
  | [], _ => []
  | e :: t, k => if e.1 = k then dictDelete t k else e :: dictDelete t k

/-- Python set.difference applied to a STRING argument, as in
o_mt_m.Dests.difference(self.j) at causal.py line 167: the string is
treated as an iterable of its characters, so the elements removed are
exactly the one-character strings made of characters of j, not j
itself. -/
def pyStrDifference (s : Finset String) (j : String) : Finset String :=
  s.filter (fun x => x ∉ j.data.map (fun c => String.mk [c]))

/-- newerEntryExists(s, t, X) of causal.py: true iff some x in X has the
same origin and a strictly newer timestamp. -/
def newerEntryExists (s : String) (t : Nat) (X : Finset CausalMessageEntry) :
    Bool :=
  decide (∃ x ∈ X, x.i = s ∧ t < x.clock_i)

/-- purgeNullEntries of causal.py: mark every l in LOG_j with empty Dests
for which a strictly newer same-origin entry exists in LOG_j (marks are
computed against the unmodified log), then discard the marks. -/
def purgeNullEntries (LOG : Finset CausalMessageEntry) :
    Finset CausalMessageEntry :=
  LOG.filter (fun l => ¬(l.Dests = ∅ ∧ newerEntryExists l.i l.clock_i LOG = true))

/-- The per-entry body of the send loop (causal.py lines 92-95),
translated statement by statement: two SEQUENTIAL ifs, the second one
re-testing membership on the possibly already rewritten set. -/
def sPruneEntry (d : String) (Dests : Finset String)
    (o : CausalMessageEntry) : CausalMessageEntry :=
  let o1 := if d ∉ o.Dests then { o with Dests := o.Dests \ Dests } else o
  if d ∈ o1.Dests then { o1 with Dests := (o1.Dests \ Dests) ∪ {d} } else o1

/-- The pruning rule S-prune-d exactly as the specification words it:
if d ∉ o.dests then o.dests \ Dests, if d ∈ o.dests then
(o.dests \ Dests) ∪ {d}.  Kept separate from sPruneEntry so the two can
be compared. -/
def specPruneEntry (d : String) (Dests : Finset String)
    (o : CausalMessageEntry) : CausalMessageEntry :=
  if d ∈ o.Dests then { o with Dests := (o.Dests \ Dests) ∪ {d} }
  else { o with Dests := o.Dests \ Dests }

/-- The piggy-back set built for destination d: a fresh copy of LOG_j
with every entry rewritten by the send loop body (causal.py lines
87-95), before stale empty entries are dropped. -/
def buildOM (LOG : Finset CausalMessageEntry) (d : String)
    (Dests : Finset String) : Finset CausalMessageEntry :=
  LOG.image (sPruneEntry d Dests)

/-- The stale-entry drop of causal.py lines 97-102: remove every entry
with empty Dests for which O_M holds a strictly newer same-origin entry.
The loop removes entries one at a time from the running set, but the
strictly newest entry of each origin can never be removed, so an entry
is removed in some iteration iff it is empty and shadowed in the
original set; the result is this filter. -/
def omDropStale (O_M : Finset CausalMessageEntry) :
    Finset CausalMessageEntry :=
  O_M.filter (fun o => ¬(o.Dests = ∅ ∧ newerEntryExists o.i o.clock_i O_M = true))

/-- The envelope handed to the transport sink of destination d by
send(M, Dests): header (j, clock_j + 1, M, Dests) and the pruned,
stale-dropped piggy-back copy of LOG_j. -/
def mkEnvelope (st : COMState) (M : String) (Dests : Finset String)
    (d : String) : Envelope :=
  { k := st.j, t_k := st.clock_j + 1, M := M, Dests := Dests,
    O_M := omDropStale (buildOM st.LOG_j d Dests) }

/-- The set of (destination, envelope) pairs emitted by send(M, Dests):
one envelope per destination.  Empty Dests emits nothing. -/
def sendOutputs (st : COMState) (M : String) (Dests : Finset String) :
    Finset (String × Envelope) :=
  Dests.image (fun d => (d, mkEnvelope st M Dests d))

/-- The state transition of send(M, Dests) (causal.py lines 84, 119-125):
increment clock_j, shrink every log entry by Dests (step 1c), purge null
entries, then union in the fresh entry (j, clock_j, Dests) (step 1d).
The per-destination piggy-back copies are deep copies, so the resulting
log is computed from the original entries only. -/
def sendState (st : COMState) (M : String) (Dests : Finset String) :
    COMState :=
  { st with
    clock_j := st.clock_j + 1,
    LOG_j :=
      purgeNullEntries
        (st.LOG_j.image (fun l => { l with Dests := l.Dests \ Dests }))
      ∪ {⟨st.j, st.clock_j + 1, Dests⟩} }

/-- Evaluation of the delivery-condition test of causal.py line 153 for
one entry: the Python conjunction self.j in o.Dests and
not t_m <= self.SR_j[m] short-circuits, so SR_j[m] is read only when j
is in o.Dests; a missing key then raises KeyError, modelled as none.
some b means the test evaluated to b (true = must wait). -/
def recvCheckEntry (j : String) (SR : List (String × Nat))
    (o : CausalMessageEntry) : Option Bool :=
  if j ∈ o.Dests then
    (dictLookup SR o.i).map (fun v => decide (¬ o.clock_i ≤ v))
  else
    some false

/-- Whether the delivery-condition loop of recv raises a KeyError on
some entry of O_M. -/
def recvCheckErrors (j : String) (SR : List (String × Nat))
    (O_M : Finset CausalMessageEntry) : Bool :=
  decide (∃ o ∈ O_M, recvCheckEntry j SR o = none)

/-- The state transition of recv (causal.py lines 159-217) once the
delivery condition has been passed: steps (2b) deliver and set
SR_j[k] = t_k, (2c) add (k, t_k, Dests) and strip characters of j from
every Dests (set.difference applied to the string j), (2d) the two
marking passes and the discards, the shrink pass (intersection with the
matching piggy-back entry, then removal of absorbed entries), the union,
and (2e) the final purge.  Marks are computed against the sets as they
stand when the corresponding loop runs, exactly as in the source. -/
def recvSteps (st : COMState) (k : String) (t_k : Nat) (M : String)
    (Dests : Finset String) (O_M : Finset CausalMessageEntry) : COMState :=
  let SR1 := dictInsert st.SR_j k t_k
  let O1 := insert (⟨k, t_k, Dests⟩ : CausalMessageEntry) O_M
  let O2 := O1.image (fun o => { o with Dests := pyStrDifference o.Dests st.j })
  let logKeys := st.LOG_j.image hashKey
  let omKeys := O2.image hashKey
  let O3 := O2.filter (fun o =>
    ¬ ∃ l ∈ st.LOG_j, l.i = o.i ∧ o.clock_i < l.clock_i ∧
      (o.i, o.clock_i) ∉ logKeys)
  let LOG1 := st.LOG_j.filter (fun l =>
    ¬ ∃ o ∈ O2, o.i = l.i ∧ l.clock_i < o.clock_i ∧
      (l.i, l.clock_i) ∉ omKeys)
  let LOG2 := LOG1.image (fun l =>
    { l with Dests := l.Dests.filter (fun x =>
        ∀ o ∈ O3, o.i = l.i → o.clock_i = l.clock_i → x ∈ o.Dests) })
  let O4 := O3.filter (fun o =>
    ¬ ∃ l ∈ LOG1, l.i = o.i ∧ l.clock_i = o.clock_i)
  { st with SR_j := SR1, LOG_j := purgeNullEntries (LOG2 ∪ O4) }

/-- addPeer(peer_id) of causal.py: SR_j[peer_id] = 0 and add the entry
(peer_id, 0, set()) to LOG_j. -/
def addPeer (st : COMState) (peer_id : String) : COMState :=
  { st with SR_j := dictInsert st.SR_j peer_id 0,
            LOG_j := insert (⟨peer_id, 0, ∅⟩ : CausalMessageEntry) st.LOG_j }

/-- delPeer(peer_id) of causal.py: del SR_j[peer_id] raises KeyError
(none) when the key is missing; otherwise discard every entry whose
origin is peer_id or whose Dests contains peer_id, then re-seed the log
with (controller.ip, 0, set()).  The controller constructs the manager
with own_id = controller.ip, so ip is passed explicitly here. -/
def delPeer (st : COMState) (ip : String) (peer_id : String) :
    Option COMState :=
  match dictLookup st.SR_j peer_id with
  | none => none
  | some _ =>
    some { st with
      SR_j := dictDelete st.SR_j peer_id,
      LOG_j := insert (⟨ip, 0, ∅⟩ : CausalMessageEntry)
        (st.LOG_j.filter (fun cme => ¬(peer_id = cme.i ∨ peer_id ∈ cme.Dests))) }

/-- JSON value domain, covering what packMessage emits: strings,
non-negative numbers and arrays.  json.dumps and json.loads of the
standard library are external to the repository and assumed to be
mutually inverse on this domain, so the codec is modelled directly on
JSON values. -/
inductive Jval where
  | jstr : String → Jval
  | jnum : Nat → Jval
  | jarr : List Jval → Jval

/-- One element of the O_M array packMessage builds:
[cme.i, cme.clock_i, list(cme.Dests)].  The entry is given already
enumerated as a triple (origin, seq, dest list), since list() on a
Python set picks an arbitrary enumeration. -/
def encodeEntryJ (e : String × Nat × List String) : Jval :=
  .jarr [.jstr e.1, .jnum e.2.1, .jarr (e.2.2.map .jstr)]

/-- The causal entry denoted by a wire triple (origin, seq, dest
list). -/
def wireToCME (e : String × Nat × List String) : CausalMessageEntry :=
  ⟨e.1, e.2.1, e.2.2.toFinset⟩

/-- packMessage of causal.py: the JSON array
[m, clock_m, M, list(Dests), [[i, clock_i, list(Dests)] for each entry]],
with the two sets given as enumerating lists. -/
def packMessage (m : String) (clock_m : Nat) (M : String)
    (destsList : List String) (omList : List (String × Nat × List String)) :
    Jval :=
  .jarr [.jstr m, .jnum clock_m, .jstr M, .jarr (destsList.map .jstr),
         .jarr (omList.map encodeEntryJ)]

/-- Reading a JSON array of strings back into a list, as unpackMessage
does for unpacked[3] before applying set(). -/
def decodeStrs : List Jval → Option (List String)
  | [] => some []
  | .jstr s :: rest => (decodeStrs rest).map (fun l => s :: l)
  | _ => none

/-- Reading one O_M element back:
CausalMessageEntry(e[0], e[1], set(e[2])). -/
def decodeEntry : Jval → Option CausalMessageEntry
  | .jarr [.jstr i, .jnum c, .jarr ds] =>
    (decodeStrs ds).map (fun l => ⟨i, c, l.toFinset⟩)
  | _ => none

/-- Reading the O_M array back into a list of causal entries. -/
def decodeEntries : List Jval → Option (List CausalMessageEntry)
  | [] => some []
  | v :: rest =>
    match decodeEntry v with
    | some e => (decodeEntries rest).map (fun l => e :: l)
    | none => none

/-- unpackMessage of causal.py: reshape the parsed JSON array as the
tuple (k, t_k, M, set(Dests), set of causal entries). -/
def unpackMessage : Jval →
    Option (String × Nat × String × Finset String × Finset CausalMessageEntry)
  | .jarr [.jstr k, .jnum t, .jstr M, .jarr ds, .jarr os] =>
    match decodeStrs ds, decodeEntries os with
    | some dl, some ol => some (k, t, M, dl.toFinset, ol.toFinset)
    | _, _ => none
  | _ => none

/-! Helper lemmas about the dict model, the purge routine and the
codec helpers. -/

theorem dictLookup_dictDelete_self (l : List (String × Nat)) (p : String) :
    dictLookup (dictDelete l p) p = none := by
  induction l with
  | nil => rfl
  | cons e t ih =>
    by_cases h : e.1 = p
    · simpa [dictDelete, h] using ih
    · simpa [dictDelete, dictLookup, h] using ih

theorem dictLookup_dictDelete_ne (l : List (String × Nat)) (p q : String)
    (h : q ≠ p) : dictLookup (dictDelete l p) q = dictLookup l q := by
  have hpq : p ≠ q := fun hx => h hx.symm
  induction l with
  | nil => rfl
  | cons e t ih =>
    by_cases he : e.1 = p
    · simpa [dictDelete, dictLookup, he, hpq] using ih
    · by_cases hq : e.1 = q
      · simp [dictDelete, dictLookup, he, hq, h]
      · simpa [dictDelete, dictLookup, he, hq] using ih

theorem dictLookup_dictInsert_self (l : List (String × Nat)) (k : String)
    (v : Nat) : dictLookup (dictInsert l k v) k = some v := by
  induction l with
  | nil => simp [dictInsert, dictLookup]
  | cons e t ih =>
    by_cases h : e.1 = k
    · simp [dictInsert, dictLookup, h]
    · simpa [dictInsert, dictLookup, h] using ih

theorem dictLookup_dictInsert_ne (l : List (String × Nat)) (k q : String)
    (v : Nat) (h : q ≠ k) :
    dictLookup (dictInsert l k v) q = dictLookup l q := by
  have hkq : k ≠ q := fun hx => h hx.symm
  induction l with
  | nil => simp [dictInsert, dictLookup, hkq]
  | cons e t ih =>
    by_cases he : e.1 = k
    · simp [dictInsert, dictLookup, he, hkq]
    · by_cases hq : e.1 = q
      · simp [dictInsert, dictLookup, he, hq, h]
      · simpa [dictInsert, dictLookup, he, hq] using ih

theorem dictInsert_dictInsert_same (l : List (String × Nat)) (k : String)
    (v : Nat) : dictInsert (dictInsert l k v) k v = dictInsert l k v := by
  induction l with
  | nil => simp [dictInsert]
  | cons e t ih =>
    by_cases h : e.1 = k
    · simp [dictInsert, h]
    · simpa [dictInsert, h] using ih

theorem newerEntryExists_mono (s : String) (t : Nat)
    (X Y : Finset CausalMessageEntry) (hsub : X ⊆ Y)
    (h : newerEntryExists s t X = true) : newerEntryExists s t Y = true := by
  simp only [newerEntryExists, decide_eq_true_eq] at h ⊢
  obtain ⟨x, hx, hxi, hxc⟩ := h
  exact ⟨x, hsub hx, hxi, hxc⟩

theorem purge_establishes_I2 (L : Finset CausalMessageEntry)
    (l : CausalMessageEntry) (hl : l ∈ purgeNullEntries L)
    (he : l.Dests = ∅) :
    newerEntryExists l.i l.clock_i (purgeNullEntries L) = false := by
  rw [purgeNullEntries, Finset.mem_filter] at hl
  obtain ⟨hmem, hcond⟩ := hl
  have hLfalse : newerEntryExists l.i l.clock_i L = false := by
    by_contra hc
    exact hcond ⟨he, by simpa using hc⟩
  by_contra hc
  have hres : newerEntryExists l.i l.clock_i (purgeNullEntries L) = true := by
    simpa using hc
  have := newerEntryExists_mono l.i l.clock_i _ L
    (Finset.filter_subset _ _) hres
  rw [this] at hLfalse
  exact Bool.true_eq_false.mp hLfalse

theorem decodeStrs_map (ds : List String) :
    decodeStrs (ds.map Jval.jstr) = some ds := by
  induction ds with
  | nil => rfl
  | cons s t ih => simp [decodeStrs, ih]

theorem decodeEntry_encodeEntryJ (e : String × Nat × List String) :
    decodeEntry (encodeEntryJ e) = some (wireToCME e) := by
  show (decodeStrs (e.2.2.map Jval.jstr)).map _ = _
  rw [decodeStrs_map]
  rfl

theorem decodeEntries_map (os : List (String × Nat × List String)) :
    decodeEntries (os.map encodeEntryJ) = some (os.map wireToCME) := by
  induction os with
  | nil => rfl
  | cons e t ih => simp [decodeEntries, decodeEntry_encodeEntryJ, ih]

/-! Claim theorems. -/

/-- C2: the claim says recv strips the receiver's own id j from every
o.dests of the piggy-back set so that no entry merged into LOG_j still
lists j.  The code instead calls set.difference on the STRING j
(causal.py line 167), which removes only one-character strings made of
j's characters.  Evaluated at the failing input j = "ab", envelope
(k = "c", t_k = 1, Dests = set(["ab"]), O_M empty): the stripped set
still contains "ab", and the merged log retains the entry
("c", 1, set(["ab"])) that lists j.  This contradicts the code's own
comment at lines 163-164 (delete the now redundant dependency sent to
j), so the claim is right and the code is wrong. -/
theorem recv_strip_keeps_own_id :
    pyStrDifference {"ab"} "ab" = {"ab"}
    ∧ (⟨"c", 1, {"ab"}⟩ : CausalMessageEntry) ∈
        (recvSteps (initState "ab") "c" 1 "m" {"ab"} ∅).LOG_j := by decide

/-- C3 counterexample: a received piggy-back entry whose origin "b" has
no binding in SR_j and which lists the receiver j = "a" makes the
delivery-condition evaluation raise a KeyError (modelled as none)
instead of treating SR_j["b"] as 0; so recv does fail, refuting the
claim as stated. -/
theorem recv_unknown_origin_counterexample :
    dictLookup [("a", 0)] "b" = none
    ∧ recvCheckErrors "a" [("a", 0)] {⟨"b", 1, {"a"}⟩} = true := by decide

/-- C3 amended: the Python conjunction short-circuits, so an entry that
does not list j in its dests never consults SR_j and cannot fail,
whatever its origin; but an entry that lists j and whose origin is
missing from SR_j raises a KeyError; the delivery-condition loop runs
without failure exactly when every entry listing j has a known
origin. -/
theorem recv_check_unknown_origin_amended :
    (∀ (j : String) (SR : List (String × Nat)) (o : CausalMessageEntry),
       j ∉ o.Dests → recvCheckEntry j SR o = some false)
    ∧ (∀ (j : String) (SR : List (String × Nat)) (o : CausalMessageEntry),
       j ∈ o.Dests → dictLookup SR o.i = none → recvCheckEntry j SR o = none)
    ∧ (∀ (j : String) (SR : List (String × Nat))
         (O_M : Finset CausalMessageEntry),
       (∀ o ∈ O_M, j ∈ o.Dests → (dictLookup SR o.i).isSome = true) →
       recvCheckErrors j SR O_M = false) := by
  refine ⟨?_, ?_, ?_⟩
  · intro j SR o hj
    simp [recvCheckEntry, hj]
  · intro j SR o hj hlk
    simp [recvCheckEntry, hj, hlk]
  · intro j SR O_M h
    simp only [recvCheckErrors, decide_eq_false_iff_not]
    rintro ⟨o, ho, hnone⟩
    by_cases hj : j ∈ o.Dests
    · have hs := h o ho hj
      rw [recvCheckEntry, if_pos hj] at hnone
      cases hlk : dictLookup SR o.i with
      | none => rw [hlk] at hs; simp at hs
      | some v => rw [hlk] at hnone; simp at hnone
    · rw [recvCheckEntry, if_neg hj] at hnone
      simp at hnone

/-- C3 witness: the amended statement evaluated at concrete inputs. -/
theorem recv_check_unknown_origin_amended_witness :
    recvCheckEntry "a" [] ⟨"b", 1, ∅⟩ = some false
    ∧ recvCheckEntry "c" [] ⟨"b", 1, {"c"}⟩ = none
    ∧ recvCheckErrors "a" [("b", 2)] {⟨"b", 1, {"a"}⟩} = false :=
  ⟨recv_check_unknown_origin_amended.1 "a" [] ⟨"b", 1, ∅⟩ (by decide),
   recv_check_unknown_origin_amended.2.1 "c" [] ⟨"b", 1, {"c"}⟩
     (by decide) (by decide),
   recv_check_unknown_origin_amended.2.2 "a" [("b", 2)] {⟨"b", 1, {"a"}⟩}
     (by decide)⟩

/-- C4 counterexample: the two entries ("a", 1, set()) and
("a", 1, set(["b"])) agree on (origin, seq), hence hash alike, yet the
dataclass equality (eq=True compares all fields) distinguishes them; so
it is false that two entries are equal iff their (origin, seq) match. -/
theorem cme_identity_counterexample :
    hashKey (⟨"a", 1, ∅⟩ : CausalMessageEntry) =
      hashKey (⟨"a", 1, {"b"}⟩ : CausalMessageEntry)
    ∧ pyEqCME ⟨"a", 1, ∅⟩ ⟨"a", 1, {"b"}⟩ = false := by decide

/-- C4 amended: hashing uses (origin, seq) only, but the
dataclass-generated equality compares all three fields, so dests IS
part of entry equality: two entries are equal iff origin, seq and dests
all match, and they hash alike iff (origin, seq) match. -/
theorem cme_identity_amended :
    ∀ a b : CausalMessageEntry,
      (pyEqCME a b = true ↔
        a.i = b.i ∧ a.clock_i = b.clock_i ∧ a.Dests = b.Dests)
      ∧ (hashKey a = hashKey b ↔ a.i = b.i ∧ a.clock_i = b.clock_i) := by
  intro a b
  constructor
  · simp [pyEqCME, and_assoc]
  · simp [hashKey, Prod.ext_iff]

/-- C5 counterexample: calling send with an empty destination set from
the freshly constructed state is NOT a no-op on local state: clock_j
goes from 0 to 1 and the fresh entry (j, 1, set()) is inserted into
LOG_j. -/
theorem send_empty_dests_counterexample :
    (initState "a").clock_j = 0
    ∧ (sendState (initState "a") "m" ∅).clock_j = 1
    ∧ (⟨"a", 1, ∅⟩ : CausalMessageEntry) ∈
        (sendState (initState "a") "m" ∅).LOG_j
    ∧ (⟨"a", 1, ∅⟩ : CausalMessageEntry) ∉ (initState "a").LOG_j := by decide

/-- C5 amended: send with an empty destination set raises nothing and
performs no network I/O (no envelope is emitted) and leaves SR_j
unchanged, but it still increments clock_j and inserts (j, clock_j,
empty set) into LOG_j.  (The controller's handleOutgoingMessage
independently returns before calling send when the resolved destination
set is empty.) -/
theorem send_empty_dests_amended :
    ∀ (st : COMState) (M : String),
      sendOutputs st M ∅ = ∅
      ∧ (sendState st M ∅).SR_j = st.SR_j
      ∧ (sendState st M ∅).j = st.j
      ∧ (sendState st M ∅).clock_j = st.clock_j + 1
      ∧ (⟨st.j, st.clock_j + 1, ∅⟩ : CausalMessageEntry) ∈
          (sendState st M ∅).LOG_j := by
  intro st M
  refine ⟨by simp [sendOutputs], rfl, rfl, rfl, ?_⟩
  simp [sendState]

/-- C6 counterexample: the very first send from the initial state
violates the invariant.  After send("m", set(["b"])) at peer "a" the log
contains the seed ("a", 0, set()) with empty dests together with the
strictly newer same-origin entry ("a", 1, set(["b"])): the purge runs
BEFORE the step (1d) insertion, so the stale empty entry survives. -/
theorem send_violates_log_invariant :
    (⟨"a", 0, ∅⟩ : CausalMessageEntry) ∈
      (sendState (initState "a") "m" {"b"}).LOG_j
    ∧ (⟨"a", 0, ∅⟩ : CausalMessageEntry).Dests = ∅
    ∧ newerEntryExists "a" 0 (sendState (initState "a") "m" {"b"}).LOG_j
        = true := by decide

/-- C6 amended: purgeNullEntries establishes the invariant on any log
it is given (no surviving empty-dests entry has a strictly newer
same-origin entry in the result), and consequently the invariant holds
after each completed receive, whose last log operation is the purge; it
does not in general hold after send (see the counterexample), whose
purge precedes the step (1d) insertion, nor after addPeer or delPeer,
which insert a (p, 0, empty) entry unconditionally. -/
theorem log_purge_invariant_amended :
    (∀ (L : Finset CausalMessageEntry) (l : CausalMessageEntry),
       l ∈ purgeNullEntries L → l.Dests = ∅ →
       newerEntryExists l.i l.clock_i (purgeNullEntries L) = false)
    ∧ (∀ (st : COMState) (k : String) (t_k : Nat) (M : String)
         (Dests : Finset String) (O_M : Finset CausalMessageEntry)
         (l : CausalMessageEntry),
       l ∈ (recvSteps st k t_k M Dests O_M).LOG_j → l.Dests = ∅ →
       newerEntryExists l.i l.clock_i
         ((recvSteps st k t_k M Dests O_M).LOG_j) = false) := by
  refine ⟨purge_establishes_I2, ?_⟩
  intro st k t_k M Dests O_M l hl he
  exact purge_establishes_I2 _ l hl he

set_option maxHeartbeats 1000000 in
/-- C6 witness: the amended statement evaluated at concrete inputs, for
the purge routine and for a completed receive. -/
theorem log_purge_invariant_amended_witness :
    newerEntryExists "a" 1
      (purgeNullEntries {⟨"a", 0, ∅⟩, ⟨"a", 1, ∅⟩}) = false
    ∧ newerEntryExists "b" 1
        ((recvSteps (initState "a") "b" 1 "m" {"a"} ∅).LOG_j) = false :=
  ⟨log_purge_invariant_amended.1 {⟨"a", 0, ∅⟩, ⟨"a", 1, ∅⟩} ⟨"a", 1, ∅⟩
     (by decide) (by decide),
   log_purge_invariant_amended.2 (initState "a") "b" 1 "m" {"a"} ∅
     ⟨"b", 1, ∅⟩ (by decide) (by decide)⟩

/-- C7: the codec round-trips every well-formed envelope losslessly.
For any envelope and any enumerations of its two sets (list() on a
Python set yields some enumeration), unpacking the packed JSON value
returns exactly the original header fields and sets, including when
Dests, O_M or any entry's dests is empty. -/
theorem codec_roundtrip :
    ∀ (E : Envelope) (ds : List String)
      (os : List (String × Nat × List String)),
      ds.toFinset = E.Dests →
      (os.map wireToCME).toFinset = E.O_M →
      unpackMessage (packMessage E.k E.t_k E.M ds os) =
        some (E.k, E.t_k, E.M, E.Dests, E.O_M) := by
  intro E ds os hds hos
  show (match decodeStrs (ds.map Jval.jstr),
          decodeEntries (os.map encodeEntryJ) with
        | some dl, some ol => some (E.k, E.t_k, E.M, dl.toFinset, ol.toFinset)
        | _, _ => none) = _
  rw [decodeStrs_map, decodeEntries_map]
  show some (E.k, E.t_k, E.M, ds.toFinset, (os.map wireToCME).toFinset) =
    some (E.k, E.t_k, E.M, E.Dests, E.O_M)
  rw [hds, hos]

/-- C7 witness: round trip of a concrete envelope with both sets
empty. -/
theorem codec_roundtrip_witness :
    unpackMessage (packMessage "a" 0 "hello" [] []) =
      some ("a", 0, "hello", (∅ : Finset String),
            (∅ : Finset CausalMessageEntry)) :=
  codec_roundtrip ⟨"a", 0, "hello", ∅, ∅⟩ [] [] (by decide) (by decide)

/-- C8: the two sequential ifs of the send loop body implement exactly
the claimed per-destination rewrite (o.dests \ Dests when d is not in
o.dests, (o.dests \ Dests) union d when it is); the piggy-back set
built for d is the image of that rewrite over a copy of LOG_j; and the
log send leaves behind is computed from the ORIGINAL entries only (step
1c shrink, purge, step 1d insert), untouched by the per-destination
pruning of the deep copies. -/
theorem send_prune_rule :
    (∀ (d : String) (Dests : Finset String) (o : CausalMessageEntry),
       sPruneEntry d Dests o = specPruneEntry d Dests o)
    ∧ (∀ (LOG : Finset CausalMessageEntry) (d : String)
         (Dests : Finset String),
       buildOM LOG d Dests = LOG.image (specPruneEntry d Dests))
    ∧ (∀ (st : COMState) (M : String) (Dests : Finset String),
       (sendState st M Dests).LOG_j =
         purgeNullEntries
           (st.LOG_j.image (fun l => { l with Dests := l.Dests \ Dests }))
         ∪ {⟨st.j, st.clock_j + 1, Dests⟩}) := by
  have hpt : ∀ (d : String) (Dests : Finset String)
      (o : CausalMessageEntry),
      sPruneEntry d Dests o = specPruneEntry d Dests o := by
    intro d Dests o
    by_cases h : d ∈ o.Dests
    · simp [sPruneEntry, specPruneEntry, h]
    · have h2 : d ∉ o.Dests \ Dests := fun hc =>
        h (Finset.mem_sdiff.mp hc).1
      simp [sPruneEntry, specPruneEntry, h, h2]
  refine ⟨hpt, ?_, fun st M Dests => rfl⟩
  intro LOG d Dests
  unfold buildOM
  have : sPruneEntry d Dests = specPruneEntry d Dests := funext (hpt d Dests)
  rw [this]

/-- C9 counterexample: a reachable operation sequence lowers an
existing SR_j entry.  At peer "a": addPeer("p"), then receive of p's
first message (k = "p", t_k = 1) sets SR_j["p"] = 1; a repeated
addPeer("p") then resets SR_j["p"] to 0 < 1, so SR_j is not monotone
across the manager's operations. -/
theorem addPeer_resets_SR_counterexample :
    dictLookup (recvSteps (addPeer (initState "a") "p") "p" 1 "hi" {"a"}
      {⟨"p", 0, ∅⟩, ⟨"a", 0, ∅⟩}).SR_j "p" = some 1
    ∧ dictLookup (addPeer (recvSteps (addPeer (initState "a") "p") "p" 1 "hi"
        {"a"} {⟨"p", 0, ∅⟩, ⟨"a", 0, ∅⟩}) "p").SR_j "p" = some 0 := by decide

/-- C9 amended: send leaves SR_j entirely unchanged and delPeer only
removes the deleted key, leaving every other entry unchanged; but
receive unconditionally assigns SR_j[k] := t_k (lowering it whenever an
envelope with t_k smaller than the current value is processed) and
addPeer unconditionally assigns SR_j[p] := 0 (lowering an existing
positive entry); both leave all other keys unchanged. -/
theorem SR_monotone_amended :
    (∀ (st : COMState) (M : String) (Dests : Finset String),
       (sendState st M Dests).SR_j = st.SR_j)
    ∧ (∀ (st : COMState) (ip p : String) (s : COMState),
       delPeer st ip p = some s →
       ∀ q, q ≠ p → dictLookup s.SR_j q = dictLookup st.SR_j q)
    ∧ (∀ (st : COMState) (k : String) (t_k : Nat) (M : String)
         (Dests : Finset String) (O_M : Finset CausalMessageEntry),
       dictLookup (recvSteps st k t_k M Dests O_M).SR_j k = some t_k
       ∧ ∀ q, q ≠ k →
           dictLookup (recvSteps st k t_k M Dests O_M).SR_j q =
             dictLookup st.SR_j q)
    ∧ (∀ (st : COMState) (p : String),
       dictLookup (addPeer st p).SR_j p = some 0
       ∧ ∀ q, q ≠ p →
           dictLookup (addPeer st p).SR_j q = dictLookup st.SR_j q) := by
  refine ⟨fun st M Dests => rfl, ?_, ?_, ?_⟩
  · intro st ip p s hdel q hq
    cases hlk : dictLookup st.SR_j p with
    | none => rw [delPeer, hlk] at hdel; exact absurd hdel (by simp)
    | some v =>
      rw [delPeer, hlk] at hdel
      have hs : s.SR_j = dictDelete st.SR_j p := by
        cases hdel
        rfl
      rw [hs]
      exact dictLookup_dictDelete_ne st.SR_j p q hq
  · intro st k t_k M Dests O_M
    exact ⟨dictLookup_dictInsert_self st.SR_j k t_k,
           fun q hq => dictLookup_dictInsert_ne st.SR_j k q t_k hq⟩
  · intro st p
    exact ⟨dictLookup_dictInsert_self st.SR_j p 0,
           fun q hq => dictLookup_dictInsert_ne st.SR_j p q 0 hq⟩

/-- C9 witness: the amended statement evaluated at concrete inputs. -/
theorem SR_monotone_amended_witness :
    dictLookup (COMState.mk "a" 0 [("a", 0)] {⟨"a", 0, ∅⟩}).SR_j "a" =
      dictLookup (COMState.mk "a" 0 [("a", 0), ("b", 3)]
        {⟨"a", 0, ∅⟩}).SR_j "a"
    ∧ dictLookup (recvSteps (initState "a") "b" 2 "m" ∅ ∅).SR_j "b" =
        some 2 :=
  ⟨SR_monotone_amended.2.1 (COMState.mk "a" 0 [("a", 0), ("b", 3)]
      {⟨"a", 0, ∅⟩}) "a" "b" (COMState.mk "a" 0 [("a", 0)] {⟨"a", 0, ∅⟩})
      (by decide) "a" (by decide),
   (SR_monotone_amended.2.2.1 (initState "a") "b" 2 "m" ∅ ∅).1⟩

/-- C10: del SR_j[peer_id] raises a KeyError when the peer has no entry
in SR_j, so delPeer on an untracked peer fails; it is not idempotent:
after a successful delPeer(p) the key is gone, so an immediate second
delPeer(p) fails; addPeer, by contrast, is idempotent. -/
theorem delPeer_keyerror :
    (∀ (st : COMState) (ip p : String),
       dictLookup st.SR_j p = none → delPeer st ip p = none)
    ∧ (∀ (st : COMState) (ip p : String) (s : COMState),
       delPeer st ip p = some s → delPeer s ip p = none)
    ∧ (∀ (st : COMState) (p : String),
       addPeer (addPeer st p) p = addPeer st p) := by
  have h1 : ∀ (st : COMState) (ip p : String),
      dictLookup st.SR_j p = none → delPeer st ip p = none := by
    intro st ip p h
    rw [delPeer, h]
  refine ⟨h1, ?_, ?_⟩
  · intro st ip p s hdel
    cases hlk : dictLookup st.SR_j p with
    | none => rw [delPeer, hlk] at hdel; exact absurd hdel (by simp)
    | some v =>
      rw [delPeer, hlk] at hdel
      have hs : s.SR_j = dictDelete st.SR_j p := by
        cases hdel
        rfl
      exact h1 s ip p (hs ▸ dictLookup_dictDelete_self st.SR_j p)
  · intro st p
    simp only [addPeer, dictInsert_dictInsert_same, Finset.insert_idem]

/-- C10 witness: delPeer fails on an untracked peer of the fresh state,
and fails on the second of two consecutive calls. -/
theorem delPeer_keyerror_witness :
    delPeer (initState "a") "a" "x" = none
    ∧ delPeer (⟨"a", 0, [], {⟨"a", 0, ∅⟩}⟩ : COMState) "a" "a" = none :=
  ⟨delPeer_keyerror.1 (initState "a") "a" "x" (by decide),
   delPeer_keyerror.2.1 (initState "a") "a" "a"
     (⟨"a", 0, [], {⟨"a", 0, ∅⟩}⟩ : COMState) (by decide)⟩

end CausalChat
